import Mathlib

/-!
# Verification of the `@synet/shell-exec` execution unit

Shallow embedding of `src/shell-exec-unit.ts` (class `ShellExecUnit`) and of
the prototype's `analyzePatterns` method.  Pure string/list computations are
translated directly; the event-driven process lifecycle (`exec`, `stream`)
is modelled as a deterministic function of the unit state together with an
explicit description of what the spawned OS process did (its pid, output
chunks, and whether/when it closed or errored).  JavaScript peculiarities
that the claims touch are embedded explicitly:

* `x || default` treats `0` and `""` as absent (`jsOrNat`, `jsOrStr`);
* `String.prototype.trim()` removes whitespace at *both* ends (`jsTrim`);
* `String.prototype.includes` is substring containment (`strIncludes`);
* Node's `ChildProcess.killed` is set as soon as `kill()` successfully
  sends a signal, not when the process exits (`jsKill` / `ChildState`);
* `[...arr]` is a shallow copy: the array is fresh, the element objects
  are shared (the `JsHeap` model).
-/

/-- One shell-output chunk decoded to a string; `stdout += data.toString()`
concatenates chunks, modelled with `String.join`. -/
abbrev Chunk := String

/-- Whitespace as trimmed by JavaScript `trim()` (ASCII subset; the commands
and outputs modelled here contain no exotic Unicode spaces). -/
def isJsWhitespace (c : Char) : Bool :=
  c == ' ' || c == '\t' || c == '\n' || c == '\r' || c == '\x0b' || c == '\x0c'

/-- JavaScript `String.prototype.trim()`: removes leading AND trailing
whitespace. -/
def jsTrim (s : String) : String :=
  String.mk (((s.data.dropWhile isJsWhitespace).reverse.dropWhile isJsWhitespace).reverse)

/-- Trailing-whitespace-only trim, written from the spec's words
("trimmed of trailing whitespace", leading text preserved); used solely to
compare the spec's description with the code's `jsTrim`. -/
def specTrimEnd (s : String) : String :=
  String.mk ((s.data.reverse.dropWhile isJsWhitespace).reverse)

/-- `listStartsWith s t`: `s` begins with `t` (character lists). -/
def listStartsWith : List Char → List Char → Bool
  | _, [] => true
  | [], _ :: _ => false
  | a :: s, b :: t => a == b && listStartsWith s t

/-- `listContainsSub sub s`: `sub` occurs contiguously inside `s`;
JavaScript `s.includes(sub)` on character lists. -/
def listContainsSub (sub : List Char) : List Char → Bool
  | [] => listStartsWith [] sub
  | c :: rest => listStartsWith (c :: rest) sub || listContainsSub sub rest

/-- JavaScript `s.includes(sub)`. -/
def strIncludes (s sub : String) : Bool :=
  listContainsSub sub.data s.data

/-- JavaScript `s.startsWith(t)`. -/
def strStartsWith (s t : String) : Bool :=
  listStartsWith s.data t.data

/-- `command.split(' ')[0]`: the characters before the first space
(`""` when the command starts with a space or is empty, as in JS). -/
def firstToken (command : String) : String :=
  String.mk (command.data.takeWhile (fun c => c != ' '))

/-- JavaScript `x || d` for an optional number field: `0` is falsy, so a
supplied `0` falls back to the default. -/
def jsOrNat (x : Option Nat) (d : Nat) : Nat :=
  match x with
  | some v => if v = 0 then d else v
  | none => d

/-- JavaScript `x || d` for an optional string field: `""` is falsy, so a
supplied empty string falls back to the default. -/
def jsOrStr (x : Option String) (d : String) : String :=
  match x with
  | some v => if v = "" then d else v
  | none => d

/-- `ExecOptions` of the source (the fields the core reads; `env`, `args`
and the callbacks do not influence any modelled observable). -/
structure ExecOptions where
  cwd : Option String := none
  timeout : Option Nat := none
  deriving Repr, DecidableEq

/-- `ExecResult` of the source. -/
structure ExecResult where
  exitCode : Int
  stdout : String
  stderr : String
  duration : Nat
  killed : Bool
  command : String
  pid : Option Nat
  deriving Repr, DecidableEq

/-- Return shape of `validate`. -/
structure ValidationResult where
  valid : Bool
  reason : String
  suggestions : List String
  deriving Repr, DecidableEq

/-- The read-only configuration part of `ShellExecProps`. -/
structure ShellExecProps where
  defaultTimeout : Nat
  defaultCwd : String
  allowedCommands : List String
  blockedCommands : List String
  maxConcurrent : Nat
  deriving Repr, DecidableEq

/-- The mutable part of `ShellExecProps`: the history array and the
running-process registry.  The `Map<number, ChildProcess>` is modelled by
its key list in insertion order (`Map` iteration order); the handles are
irrelevant to the claims. -/
structure UnitState where
  executionHistory : List ExecResult
  runningProcesses : List Nat
  deriving Repr, DecidableEq

/-- `Map.set pid child`: inserting an existing key leaves the key set and
its order unchanged. -/
def regSet (reg : List Nat) (pid : Nat) : List Nat :=
  if reg.contains pid then reg else reg ++ [pid]

/-- `Map.delete pid`. -/
def regDelete (reg : List Nat) (pid : Nat) : List Nat :=
  reg.filter (fun q => q != pid)

/-- `validate` (source lines 469–512): blocked-substring scan first
(first match wins), then the allow-list gate on the leading token, then
the concurrency gate against the registry size, else valid. -/
def validate (p : ShellExecProps) (st : UnitState) (command : String) : ValidationResult :=
  let commandBase := firstToken command
  match p.blockedCommands.find? (fun blocked => strIncludes command blocked) with
  | some blocked =>
    { valid := false
      reason := "Command contains blocked pattern: " ++ blocked
      suggestions := ["Use safer alternatives to " ++ blocked] }
  | none =>
    if 0 < p.allowedCommands.length &&
        !(p.allowedCommands.any fun allowed =>
          commandBase == allowed || strStartsWith command (allowed ++ " ")) then
      { valid := false
        reason := "Command not in allowed list: " ++ commandBase
        suggestions := p.allowedCommands.take 3 }
    else if p.maxConcurrent ≤ st.runningProcesses.length then
      { valid := false
        reason := "Maximum concurrent processes reached: " ++ toString p.maxConcurrent
        suggestions := ["Wait for running processes to complete",
                        "Use killAll() to terminate running processes"] }
    else
      { valid := true
        reason := "Command passed all safety checks"
        suggestions := [] }

/-- The resolved effective options of one `exec` call
(`{ cwd: options.cwd || defaultCwd, timeout: options.timeout || defaultTimeout }`,
source lines 291–295). -/
structure EffOptions where
  cwd : String
  timeout : Nat
  deriving Repr, DecidableEq

/-- Option resolution performed at the top of `exec` (and inline in
`stream`): JavaScript `||` against the configured defaults. -/
def resolveOptions (p : ShellExecProps) (opts : ExecOptions) : EffOptions :=
  { cwd := jsOrStr opts.cwd p.defaultCwd
    timeout := jsOrNat opts.timeout p.defaultTimeout }

/-- How the spawned process ends: a `close` event carrying
`exitCode : number | null`, or an `error` event (spawn failure). -/
inductive ProcEnd where
  | closes (exitCode : Option Int)
  | fails (errMsg : String)
  deriving Repr, DecidableEq

/-- Description of everything the external OS process does during one
execution: the pid obtained from `spawn` (if any), the decoded stdout and
stderr chunks, how the process ends, and at which instant (milliseconds
after spawn) the `close`/`error` event fires. -/
structure SpawnEvent where
  pid : Option Nat
  stdoutChunks : List Chunk
  stderrChunks : List Chunk
  ending : ProcEnd
  endTime : Nat
  deriving Repr, DecidableEq

/-- Signals `exec`/`stream` can send to the child. -/
inductive Signal where
  | sigterm
  | sigkill
  deriving Repr, DecidableEq

/-- The slice of Node's `ChildProcess` observable by the watchdog:
`killed` is set as soon as `kill()` successfully sends a signal — it does
NOT mean the process exited. -/
structure ChildState where
  killedFlag : Bool
  exited : Bool
  deriving Repr, DecidableEq

/-- `child.kill(sig)`: when the process has not already exited the signal
is sent and `ChildProcess.killed` becomes true. -/
def jsKill (c : ChildState) : ChildState :=
  if c.exited then c else { c with killedFlag := true }

/-- The `exec` watchdog (source lines 336–346): it fires iff the process
is still running when the effective timeout elapses.  On firing it sets the
local `killed` flag and sends SIGTERM via `child.kill`, and schedules a
second timer 1000 ms later that sends SIGKILL only `if (!child.killed)` —
but `child.killed` was already set by the SIGTERM send, so the guard is
evaluated against the signal-sent flag, not against process exit.
Returns the signals sent and the final value of the local `killed` flag. -/
def execTimeline (effTimeout endTime : Nat) : List Signal × Bool :=
  if effTimeout < endTime then
    let child := jsKill { killedFlag := false, exited := false }
    let forceSignals := if !child.killedFlag then [Signal.sigkill] else []
    (Signal.sigterm :: forceSignals, true)
  else
    ([], false)

/-- What the spec's words ask of the secondary kill ("if the process has
not exited after a fixed secondary grace period (1000 ms), send a forceful
kill signal"): SIGKILL is due exactly when the watchdog fired and the
process was still running 1000 ms later. -/
def specForceKillDue (effTimeout endTime : Nat) : Bool :=
  effTimeout < endTime && effTimeout + 1000 < endTime

/-- The `stream` watchdog (source lines 428–431): SIGTERM only, no
secondary force-kill timer at all. -/
def streamTimeline (effTimeout endTime : Nat) : List Signal × Bool :=
  if effTimeout < endTime then ([Signal.sigterm], true) else ([], false)

/-- Observable outcome of one `exec` call. -/
inductive ExecOutcome where
  | blocked (errMsg : String)
  | spawnErrored (errMsg : String)
  | completed (result : ExecResult)
  deriving Repr, DecidableEq

/-- Everything one `exec` call did: its outcome, the unit state afterwards,
the signals sent to the child, and whether a process was spawned at all. -/
structure ExecRunResult where
  outcome : ExecOutcome
  state : UnitState
  signals : List Signal
  spawned : Bool
  deriving Repr, DecidableEq

/-- `exec` (source lines 289–389) as a function of the unit state and the
process behaviour: resolve options, validate (throw before spawning when
invalid), spawn and register the pid, accumulate output, run the watchdog,
and on `close` build the trimmed result, deregister, append to history;
on `error` deregister and reject with command and cause, no history. -/
def execRun (p : ShellExecProps) (st : UnitState) (command : String)
    (opts : ExecOptions) (ev : SpawnEvent) : ExecRunResult :=
  let eff := resolveOptions p opts
  let validation := validate p st command
  if !validation.valid then
    { outcome := ExecOutcome.blocked ("[shell-exec] Command blocked: " ++ validation.reason)
      state := st
      signals := []
      spawned := false }
  else
    let reg1 := match ev.pid with
      | some pid => regSet st.runningProcesses pid
      | none => st.runningProcesses
    let timeline := execTimeline eff.timeout ev.endTime
    let reg2 := match ev.pid with
      | some pid => regDelete reg1 pid
      | none => reg1
    match ev.ending with
    | ProcEnd.fails msg =>
      { outcome := ExecOutcome.spawnErrored
          ("Command execution failed: " ++ command ++ "\nError: " ++ msg)
        state := { st with runningProcesses := reg2 }
        signals := timeline.1
        spawned := true }
    | ProcEnd.closes exitCode =>
      let result : ExecResult :=
        { exitCode := exitCode.getD 0
          stdout := jsTrim (String.join ev.stdoutChunks)
          stderr := jsTrim (String.join ev.stderrChunks)
          duration := ev.endTime
          killed := timeline.2
          command := command
          pid := ev.pid }
      { outcome := ExecOutcome.completed result
        state := { executionHistory := st.executionHistory ++ [result]
                   runningProcesses := reg2 }
        signals := timeline.1
        spawned := true }

/-- Return shape of `stream`: `Omit<ExecResult, 'stdout' | 'stderr'>`. -/
structure StreamResult where
  exitCode : Int
  duration : Nat
  killed : Bool
  command : String
  pid : Option Nat
  deriving Repr, DecidableEq

/-- Observable outcome of one `stream` call.  A `blocked` constructor is
provided so that "stream rejects invalid commands before spawning" is
expressible; the embedding of the source never produces it. -/
inductive StreamOutcome where
  | blocked (errMsg : String)
  | spawnErrored (errMsg : String)
  | completed (result : StreamResult)
  deriving Repr, DecidableEq

/-- Everything one `stream` call did, including the chunk sequences handed
to the caller's `onStdout`/`onStderr` callbacks and the value handed to
`onExit` (if the process closed). -/
structure StreamRunResult where
  outcome : StreamOutcome
  state : UnitState
  signals : List Signal
  spawned : Bool
  stdoutDelivered : List Chunk
  stderrDelivered : List Chunk
  exitDelivered : Option Int
  deriving Repr, DecidableEq

/-- `stream` (source lines 394–464): spawns immediately — there is no call
to `validate` anywhere in its body — registers the pid, forwards each chunk
to the callbacks, runs a SIGTERM-only watchdog, and on `close` calls
`onExit(exitCode || 0)` and resolves without touching the history; on
`error` it deregisters and rejects with the raw error. -/
def streamRun (p : ShellExecProps) (st : UnitState) (command : String)
    (opts : ExecOptions) (ev : SpawnEvent) : StreamRunResult :=
  let eff := resolveOptions p opts
  let reg1 := match ev.pid with
    | some pid => regSet st.runningProcesses pid
    | none => st.runningProcesses
  let timeline := streamTimeline eff.timeout ev.endTime
  let reg2 := match ev.pid with
    | some pid => regDelete reg1 pid
    | none => reg1
  match ev.ending with
  | ProcEnd.fails msg =>
    { outcome := StreamOutcome.spawnErrored msg
      state := { st with runningProcesses := reg2 }
      signals := timeline.1
      spawned := true
      stdoutDelivered := ev.stdoutChunks
      stderrDelivered := ev.stderrChunks
      exitDelivered := none }
  | ProcEnd.closes exitCode =>
    { outcome := StreamOutcome.completed
        { exitCode := exitCode.getD 0
          duration := ev.endTime
          killed := timeline.2
          command := command
          pid := ev.pid }
      state := { st with runningProcesses := reg2 }
      signals := timeline.1
      spawned := true
      stdoutDelivered := ev.stdoutChunks
      stderrDelivered := ev.stderrChunks
      exitDelivered := some (exitCode.getD 0) }

/-- Registry-affecting events of the interleaved system, at the grain the
event loop actually schedules them.  `exec`'s concurrency gate reads the
registry size inside `await this.validate(command)` (source line 301), and
the spawn-and-register step runs only after that await resumes (source
lines 306–319); the suspension lets other calls run in between, so one
`exec` call contributes TWO separately scheduled events: `execValidate`
(compute the verdict against the registry size visible now) and, later,
`execSpawn` (spawn and register iff that earlier verdict was valid).
`stream` spawns with no validation at all (source lines 399–411), one
event.  A process `close`/`error` event removes its pid. -/
inductive AsyncEvent where
  | execValidate (callId : Nat) (command : String)
  | execSpawn (callId : Nat) (pid : Option Nat)
  | streamSpawn (command : String) (pid : Option Nat)
  | procExit (pid : Nat)
  deriving Repr, DecidableEq

/-- State of the interleaved system: the unit state plus, for each `exec`
call currently suspended between its validation and its spawn, the verdict
it computed against the registry size it saw at validation time (a stale
snapshot by the time the spawn runs). -/
structure AsyncState where
  unitState : UnitState
  pendingVerdicts : List (Nat × Bool)
  deriving Repr, DecidableEq

/-- Drop the stored verdict of call `callId`. -/
def removeVerdict (pendings : List (Nat × Bool)) (callId : Nat) : List (Nat × Bool) :=
  pendings.filter (fun e => e.1 != callId)

/-- One event-loop step.  `execValidate` records the verdict `validate`
returns against the CURRENT registry; `execSpawn` consumes that recorded
verdict — not a fresh one — and registers its pid only when it was valid
(an invalid verdict made `exec` throw instead); `streamSpawn` registers
unconditionally; `procExit` deregisters. -/
def asyncStep (p : ShellExecProps) (s : AsyncState) : AsyncEvent → AsyncState
  | AsyncEvent.execValidate callId command =>
    { s with pendingVerdicts :=
        s.pendingVerdicts ++ [(callId, (validate p s.unitState command).valid)] }
  | AsyncEvent.execSpawn callId pid =>
    match s.pendingVerdicts.find? (fun e => e.1 == callId) with
    | some e =>
      if e.2 then
        match pid with
        | some q =>
          { unitState := { s.unitState with
              runningProcesses := regSet s.unitState.runningProcesses q }
            pendingVerdicts := removeVerdict s.pendingVerdicts callId }
        | none => { s with pendingVerdicts := removeVerdict s.pendingVerdicts callId }
      else { s with pendingVerdicts := removeVerdict s.pendingVerdicts callId }
    | none => s
  | AsyncEvent.streamSpawn _ pid =>
    match pid with
    | some q =>
      { s with unitState := { s.unitState with
          runningProcesses := regSet s.unitState.runningProcesses q } }
    | none => s
  | AsyncEvent.procExit pid =>
    { s with unitState := { s.unitState with
        runningProcesses := regDelete s.unitState.runningProcesses pid } }

/-- Run a sequence of interleaved events. -/
def asyncRun (p : ShellExecProps) (s : AsyncState) (events : List AsyncEvent) : AsyncState :=
  events.foldl (asyncStep p) s

/-- A step of a serialized schedule: an `exec` call whose validate and
spawn run back to back with nothing interleaved, or a process exit. -/
inductive SerialEvent where
  | execCall (callId : Nat) (command : String) (pid : Option Nat)
  | procExit (pid : Nat)
  deriving Repr, DecidableEq

/-- The interleaved events a serialized step expands to. -/
def serialSteps : SerialEvent → List AsyncEvent
  | SerialEvent.execCall callId command pid =>
    [AsyncEvent.execValidate callId command, AsyncEvent.execSpawn callId pid]
  | SerialEvent.procExit pid => [AsyncEvent.procExit pid]

/-- The interleaved trace of a fully serialized schedule. -/
def serialTrace (l : List SerialEvent) : List AsyncEvent :=
  (l.map serialSteps).flatten

/-- A JavaScript heap fragment for the history structures: `objects` maps
an object reference to an `ExecResult` record, `arrays` maps an array
reference to its element list (object references).  Indices are the
references. -/
structure JsHeap where
  objects : List ExecResult
  arrays : List (List Nat)
  deriving Repr, DecidableEq

/-- `getHistory` (source lines 545–547): `return [...this.props.executionHistory]`
— allocate a FRESH array whose elements are the SAME object references as
the stored history array `histArr`.  Returns the heap after allocation and
the reference of the new array. -/
def getHistorySnapshot (h : JsHeap) (histArr : Nat) : JsHeap × Nat :=
  let contents := (h.arrays.get? histArr).getD []
  ({ h with arrays := h.arrays ++ [contents] }, h.arrays.length)

/-- A caller mutating its array in place (push, pop, splice, sort, element
reassignment): replaces the element list stored at array reference `a`. -/
def setArrayAt (h : JsHeap) (a : Nat) (contents : List Nat) : JsHeap :=
  { h with arrays := h.arrays.set a contents }

/-- A caller mutating a field of an `ExecResult` object it can reach
(e.g. `snapshot[0].stdout = "..."`) — updates the shared object heap. -/
def setObjectAt (h : JsHeap) (r : Nat) (v : ExecResult) : JsHeap :=
  { h with objects := h.objects.set r v }

/-- The history as observed through the stored history array `histArr`:
the records its references point to, in array order. -/
def observedHistory (h : JsHeap) (histArr : Nat) : List (Option ExecResult) :=
  ((h.arrays.get? histArr).getD []).map (fun r => h.objects.get? r)

/-- Insertion-ordered command counter of `analyzePatterns`: JavaScript
`Map<string, number>` with `set(base, (get(base) || 0) + 1)`. -/
def bumpCount (counts : List (String × Nat)) (k : String) : List (String × Nat) :=
  if counts.any (fun c => c.1 == k) then
    counts.map (fun c => if c.1 == k then (c.1, c.2 + 1) else c)
  else counts ++ [(k, 1)]

/-- Stable descending insertion by count (JavaScript `sort(([,a],[,b]) => b - a)`
with the stable sort mandated by ES2019). -/
def insertByCount (x : String × Nat) : List (String × Nat) → List (String × Nat)
  | [] => [x]
  | y :: ys => if y.2 ≤ x.2 then x :: y :: ys else y :: insertByCount x ys

/-- Stable descending sort by count. -/
def sortByCountDesc (l : List (String × Nat)) : List (String × Nat) :=
  l.foldr insertByCount []

/-- Return shape of the prototype's `analyzePatterns`.  Rates and averages
are JavaScript numbers produced by exact integer division in every case the
claims touch; modelled as rationals. -/
structure PatternAnalysis where
  totalExecutions : Nat
  successRate : Rat
  averageDuration : Rat
  mostUsedCommands : List String
  recentFailures : List ExecResult
  deriving Repr, DecidableEq

/-- `analyzePatterns` (prototype source): total, guarded success rate
(`total > 0 ? successes / total : 0`), guarded average duration, top-5
commands by frequency, and the last five non-zero-exit results. -/
def analyzePatterns (executionHistory : List ExecResult) : PatternAnalysis :=
  let total := executionHistory.length
  let successes := (executionHistory.filter (fun r => r.exitCode == 0)).length
  let avgDuration : Rat :=
    if 0 < total then ((executionHistory.map (fun r => r.duration)).sum : Rat) / (total : Rat)
    else 0
  let commandCounts := executionHistory.foldl
    (fun acc r => bumpCount acc (firstToken r.command)) []
  let mostUsed := ((sortByCountDesc commandCounts).take 5).map (fun c => c.1)
  let failures := executionHistory.filter (fun r => r.exitCode != 0)
  let recentFailures := failures.drop (failures.length - 5)
  { totalExecutions := total
    successRate := if 0 < total then (successes : Rat) / (total : Rat) else 0
    averageDuration := avgDuration
    mostUsedCommands := mostUsed
    recentFailures := recentFailures }

/-- The configuration produced by `ShellExecUnit.create({})` (source lines
211–233), with a fixed default working directory standing for `process.cwd()`. -/
def defaultProps : ShellExecProps :=
  { defaultTimeout := 30000
    defaultCwd := "/work"
    allowedCommands := ["npm", "tsc", "node", "git", "echo", "ls", "pwd", "cat", "grep"]
    blockedCommands := ["rm -rf", "sudo", "su", "dd", "mkfs", "fdisk"]
    maxConcurrent := 5 }

/-- Fresh unit state: empty history, empty registry. -/
def emptyState : UnitState := { executionHistory := [], runningProcesses := [] }

/-- A process behaviour that closes immediately and cleanly. -/
def quickClose : SpawnEvent :=
  { pid := some 101
    stdoutChunks := []
    stderrChunks := []
    ending := ProcEnd.closes (some 0)
    endTime := 5 }

/-- A spawn that errors at once (missing executable). -/
def spawnFails : SpawnEvent :=
  { pid := some 102
    stdoutChunks := []
    stderrChunks := []
    ending := ProcEnd.fails "spawn foo ENOENT"
    endTime := 1 }

/-- A process that ignores SIGTERM and only dies (signalled, `null` exit
code) 5000 ms in — long after a 100 ms timeout plus the 1000 ms grace. -/
def stubbornProc : SpawnEvent :=
  { pid := some 42
    stdoutChunks := []
    stderrChunks := []
    ending := ProcEnd.closes none
    endTime := 5000 }

/-- A run emitting output with leading and trailing whitespace. -/
def paddedOutput : SpawnEvent :=
  { pid := some 103
    stdoutChunks := ["  hi", "  \n"]
    stderrChunks := ["\t err \n"]
    ending := ProcEnd.closes (some 0)
    endTime := 7 }

/-- Sample history entry used by the heap fixtures. -/
def resultA : ExecResult :=
  { exitCode := 0, stdout := "ok", stderr := "", duration := 12
    killed := false, command := "ls", pid := some 7 }

/-- A distinct record a caller could overwrite `resultA`'s fields with. -/
def resultB : ExecResult :=
  { exitCode := 1, stdout := "tampered", stderr := "", duration := 12
    killed := false, command := "ls", pid := some 7 }

/-- Heap with one history entry: object 0 is `resultA`, array 0 is the
unit's internal history array `[0]`. -/
def heap0 : JsHeap := { objects := [resultA], arrays := [[0]] }

/-- A command accepted by `validate` would leave the registry below the
maximum: the concurrency gate is the last check, so validity implies the
registry had room. -/
theorem valid_below_max (p : ShellExecProps) (st : UnitState) (command : String)
    (h : (validate p st command).valid = true) :
    st.runningProcesses.length < p.maxConcurrent := by
  simp only [validate] at h
  split at h
  · simp at h
  · split at h
    · simp at h
    · split at h
      · simp at h
      · omega

/-- `Map.set` grows the key list by at most one. -/
theorem regSet_length_le (reg : List Nat) (pid : Nat) :
    (regSet reg pid).length ≤ reg.length + 1 := by
  unfold regSet
  split <;> simp

/-- `Map.delete` never grows the key list. -/
theorem regDelete_length_le (reg : List Nat) (pid : Nat) :
    (regDelete reg pid).length ≤ reg.length := by
  unfold regDelete
  exact List.length_filter_le _ _

/-- A deleted pid is gone from the registry. -/
theorem not_mem_regDelete (reg : List Nat) (pid : Nat) :
    pid ∉ regDelete reg pid := by
  unfold regDelete
  intro h
  have := List.of_mem_filter h
  simp at this

/-- `List.get?` after `set` at a different index is unchanged. -/
theorem listGet_set_ne {α : Type} (l : List α) (i j : Nat) (a : α) (hij : i ≠ j) :
    (l.set i a).get? j = l.get? j := by
  induction l generalizing i j with
  | nil => simp
  | cons x xs ih =>
    cases i with
    | zero =>
      cases j with
      | zero => exact absurd rfl hij
      | succ j2 => simp
    | succ i2 =>
      cases j with
      | zero => simp
      | succ j2 =>
        simp only [List.set, List.get?]
        exact ih i2 j2 (fun he => hij (by rw [he]))

/-- `List.get?` inside the left part of an append is unchanged. -/
theorem listGet_append_left {α : Type} (l m : List α) (j : Nat) (hj : j < l.length) :
    (l ++ m).get? j = l.get? j := by
  induction l generalizing j with
  | nil => simp at hj
  | cons x xs ih =>
    cases j with
    | zero => simp
    | succ j2 =>
      simp only [List.cons_append, List.get?]
      exact ih j2 (by simpa using hj)

/-- `List.get?` at the old length of an appended singleton finds it. -/
theorem listGet_append_self {α : Type} (l : List α) (a : α) :
    (l ++ [a]).get? l.length = some a := by
  induction l with
  | nil => simp
  | cons x xs ih => simp [ih]

/-- C3: any command containing a configured block-list pattern as a
substring is rejected by `validate` with a reason naming the first matching
pattern, independently of the allow-list contents and of the current
running-process count; the block-list scan is evaluated first and the first
match wins. -/
theorem C3_blocklist_scan_first (p : ShellExecProps) (command : String)
    (h : ∃ b ∈ p.blockedCommands, strIncludes command b = true) :
    ∃ b, p.blockedCommands.find? (fun x => strIncludes command x) = some b ∧
      b ∈ p.blockedCommands ∧ strIncludes command b = true ∧
      ∀ (q : ShellExecProps) (st2 : UnitState), q.blockedCommands = p.blockedCommands →
        validate q st2 command =
          { valid := false
            reason := "Command contains blocked pattern: " ++ b
            suggestions := ["Use safer alternatives to " ++ b] } := by
  obtain ⟨b0, hmem, hinc⟩ := h
  have hsome : (p.blockedCommands.find? (fun x => strIncludes command x)).isSome := by
    rw [List.find?_isSome]
    exact ⟨b0, hmem, hinc⟩
  obtain ⟨b, hfind⟩ := Option.isSome_iff_exists.mp hsome
  refine ⟨b, hfind, List.mem_of_find?_eq_some hfind, List.find?_some hfind, ?_⟩
  intro q st2 hq
  simp only [validate, hq, hfind]

/-- C3 witness: `"sudo ls"` is rejected naming `"sudo"` even with an empty
allow-list and a full registry. -/
theorem C3_witness :
    (validate { defaultProps with allowedCommands := [] }
      { emptyState with runningProcesses := [1, 2, 3, 4, 5] } "sudo ls").valid = false := by
  obtain ⟨b, hfind, _, _, hval⟩ :=
    C3_blocklist_scan_first defaultProps "sudo ls" ⟨"sudo", by decide, by decide⟩
  have hb : b = "sudo" := by
    have h2 : defaultProps.blockedCommands.find? (fun x => strIncludes "sudo ls" x)
        = some "sudo" := by decide
    exact Option.some.inj (hfind.symm.trans h2)
  rw [hval { defaultProps with allowedCommands := [] }
    { emptyState with runningProcesses := [1, 2, 3, 4, 5] } rfl]

/-- C6: `stream` never appends to the execution history — whatever the
process does (close or error, any timing, any output), the history list in
the unit state after a `stream` call is exactly what it was before. -/
theorem C6_stream_never_appends_history (p : ShellExecProps) (st : UnitState)
    (command : String) (opts : ExecOptions) (ev : SpawnEvent) :
    (streamRun p st command opts ev).state.executionHistory = st.executionHistory := by
  cases hev : ev.ending <;> simp [streamRun, hev]

/-- C7 amended: an explicitly supplied request field overrides the
configured default only when it is truthy — a supplied non-zero timeout and
a supplied non-empty cwd win, while a supplied `0` timeout or `""` cwd
falls back to the default exactly like an absent field (JavaScript `||`). -/
theorem C7_truthy_fields_override (p : ShellExecProps) (opts : ExecOptions) :
    ((∀ t : Nat, opts.timeout = some t → t ≠ 0 → (resolveOptions p opts).timeout = t) ∧
     (opts.timeout = none → (resolveOptions p opts).timeout = p.defaultTimeout) ∧
     (opts.timeout = some 0 → (resolveOptions p opts).timeout = p.defaultTimeout)) ∧
    ((∀ c : String, opts.cwd = some c → c ≠ "" → (resolveOptions p opts).cwd = c) ∧
     (opts.cwd = none → (resolveOptions p opts).cwd = p.defaultCwd) ∧
     (opts.cwd = some "" → (resolveOptions p opts).cwd = p.defaultCwd)) := by
  refine ⟨⟨?_, ?_, ?_⟩, ⟨?_, ?_, ?_⟩⟩
  · intro t ht hne
    simp [resolveOptions, jsOrNat, ht, hne]
  · intro ht
    simp [resolveOptions, jsOrNat, ht]
  · intro ht
    simp [resolveOptions, jsOrNat, ht]
  · intro c hc hne
    simp [resolveOptions, jsOrStr, hc, hne]
  · intro hc
    simp [resolveOptions, jsOrStr, hc]
  · intro hc
    simp [resolveOptions, jsOrStr, hc]

/-- C7 counterexample: a request that explicitly supplies `timeout: 0` and
`cwd: ""` does NOT get them as effective options — both fall back to the
configured defaults, refuting "the effective timeout equals the request's
timeout whenever one is supplied (for every supplied value)". -/
theorem C7_counterexample :
    resolveOptions defaultProps { cwd := some "", timeout := some 0 } =
      { cwd := "/work", timeout := 30000 } ∧
    (30000 : Nat) ≠ 0 ∧ ("/work" : String) ≠ "" := by
  exact ⟨rfl, by decide, by decide⟩

/-- C7 witness: a supplied non-zero timeout and non-empty cwd do override,
and an absent timeout resolves to the default. -/
theorem C7_witness :
    (resolveOptions defaultProps { cwd := some "/tmp", timeout := some 60000 }).timeout = 60000 ∧
    (resolveOptions defaultProps { cwd := some "/tmp", timeout := some 60000 }).cwd = "/tmp" ∧
    (resolveOptions defaultProps {}).timeout = 30000 := by
  refine ⟨(C7_truthy_fields_override defaultProps
      { cwd := some "/tmp", timeout := some 60000 }).1.1 60000 rfl (by decide),
    (C7_truthy_fields_override defaultProps
      { cwd := some "/tmp", timeout := some 60000 }).2.1 "/tmp" rfl (by decide),
    (C7_truthy_fields_override defaultProps {}).1.2.1 rfl⟩

/-- C10: `analyzePatterns` on an empty execution history yields a total of
0, a success rate of 0 and an average duration of 0 — the positive-total
guards short-circuit both divisions. -/
theorem C10_analyze_empty_history :
    analyzePatterns [] =
      { totalExecutions := 0, successRate := 0, averageDuration := 0
        mostUsedCommands := [], recentFailures := [] } := by
  rfl

/-- C1 amended: `stream` performs NO pre-spawn validation — it spawns a
process for every command (its outcome is never a validation rejection),
while `exec` does validate first and, on an invalid command, throws the
validation reason without spawning. -/
theorem C1_stream_spawns_unvalidated (p : ShellExecProps) (st : UnitState)
    (command : String) (opts : ExecOptions) (ev : SpawnEvent) :
    (streamRun p st command opts ev).spawned = true ∧
    (∀ msg, (streamRun p st command opts ev).outcome ≠ StreamOutcome.blocked msg) ∧
    ((validate p st command).valid = false →
      (execRun p st command opts ev).outcome =
        ExecOutcome.blocked ("[shell-exec] Command blocked: " ++ (validate p st command).reason) ∧
      (execRun p st command opts ev).spawned = false) := by
  refine ⟨?_, ?_, ?_⟩
  · cases hev : ev.ending <;> simp [streamRun, hev]
  · intro msg
    cases hev : ev.ending <;> simp [streamRun, hev]
  · intro hv
    constructor <;> simp [execRun, hv]

/-- C1 counterexample: the blocked command `"sudo ls"` is rejected by
`validate`, yet `stream` still spawns a process for it and completes
normally — refuting "stream spawns no process and fails with the
validation reason". -/
theorem C1_counterexample :
    (validate defaultProps emptyState "sudo ls").valid = false ∧
    (streamRun defaultProps emptyState "sudo ls" {} quickClose).spawned = true ∧
    (streamRun defaultProps emptyState "sudo ls" {} quickClose).outcome =
      StreamOutcome.completed
        { exitCode := 0, duration := 5, killed := false
          command := "sudo ls", pid := some 101 } := by
  exact ⟨rfl, rfl, rfl⟩

/-- C1 witness: on the blocked command, `exec` refuses to spawn while
`stream` spawns. -/
theorem C1_witness :
    (execRun defaultProps emptyState "sudo ls" {} quickClose).spawned = false ∧
    (streamRun defaultProps emptyState "sudo ls" {} quickClose).spawned = true := by
  have h := C1_stream_spawns_unvalidated defaultProps emptyState "sudo ls" {} quickClose
  exact ⟨(h.2.2 rfl).2, h.1⟩

/-- `asyncRun` splits across appended traces. -/
theorem asyncRun_append (p : ShellExecProps) (s : AsyncState) (a b : List AsyncEvent) :
    asyncRun p s (a ++ b) = asyncRun p (asyncRun p s a) b := by
  simp [asyncRun, List.foldl_append]

/-- From a state with no pending verdicts, a serialized exec block
validates against the current registry and spawn-registers only on a valid
verdict, leaving no verdict pending. -/
theorem serial_exec_block (p : ShellExecProps) (us : UnitState) (callId : Nat)
    (command : String) (pid : Option Nat) :
    asyncRun p { unitState := us, pendingVerdicts := [] }
      (serialSteps (SerialEvent.execCall callId command pid)) =
    { unitState :=
        if (validate p us command).valid then
          match pid with
          | some q => { us with runningProcesses := regSet us.runningProcesses q }
          | none => us
        else us
      pendingVerdicts := [] } := by
  by_cases hv : (validate p us command).valid = true <;>
    cases pid <;>
      simp [asyncRun, asyncStep, serialSteps, removeVerdict, List.find?, hv]

/-- C2 amended: the registry bound is not an invariant of the program —
`stream` spawns without validation, and `exec` evaluates its concurrency
check against a registry snapshot taken before an await suspension, so
overlapping `exec` calls can both pass the gate at a stale size (see the
counterexample for both violations).  Along fully serialized exec-only
schedules — each `exec`'s validate immediately followed by its spawn, no
`stream` calls — the validator's pre-spawn concurrency check does keep the
registry at or below `maxConcurrent`. -/
theorem C2_registry_bound_serialized (p : ShellExecProps) (l : List SerialEvent) :
    ∀ us : UnitState, us.runningProcesses.length ≤ p.maxConcurrent →
      (asyncRun p { unitState := us, pendingVerdicts := [] }
        (serialTrace l)).unitState.runningProcesses.length ≤ p.maxConcurrent := by
  induction l with
  | nil =>
    intro us hinit
    simpa [asyncRun, serialTrace] using hinit
  | cons e rest ih =>
    intro us hinit
    have hsplit : serialTrace (e :: rest) = serialSteps e ++ serialTrace rest := rfl
    rw [hsplit, asyncRun_append]
    cases e with
    | execCall callId command pid =>
      rw [serial_exec_block]
      by_cases hv : (validate p us command).valid = true
      · have hlt := valid_below_max p us command hv
        cases pid with
        | none =>
          rw [if_pos hv]
          exact ih us hinit
        | some q =>
          rw [if_pos hv]
          have hle := regSet_length_le us.runningProcesses q
          exact ih { us with runningProcesses := regSet us.runningProcesses q }
            (by show (regSet us.runningProcesses q).length ≤ p.maxConcurrent; omega)
      · rw [if_neg hv]
        exact ih us hinit
    | procExit pid =>
      have hle := regDelete_length_le us.runningProcesses pid
      have hblock : asyncRun p { unitState := us, pendingVerdicts := [] }
          (serialSteps (SerialEvent.procExit pid)) =
          { unitState := { us with runningProcesses := regDelete us.runningProcesses pid }
            pendingVerdicts := [] } := rfl
      rw [hblock]
      exact ih { us with runningProcesses := regDelete us.runningProcesses pid }
        (by show (regDelete us.runningProcesses pid).length ≤ p.maxConcurrent; omega)

/-- C2 counterexample: with `maxConcurrent = 1` the bound breaks two ways —
two `stream` spawns (no validation) put 2 pids in the registry, and two
overlapping `exec` calls that both validate against the empty registry
before either spawns (the await suspension between validate and spawn)
also put 2 pids in the registry on an exec-only trace. -/
theorem C2_counterexample :
    ({ defaultProps with maxConcurrent := 1 } : ShellExecProps).maxConcurrent = 1 ∧
    (asyncRun { defaultProps with maxConcurrent := 1 }
      { unitState := emptyState, pendingVerdicts := [] }
      [AsyncEvent.streamSpawn "ls -la" (some 11),
       AsyncEvent.streamSpawn "ls -la" (some 12)]).unitState.runningProcesses.length = 2 ∧
    (asyncRun { defaultProps with maxConcurrent := 1 }
      { unitState := emptyState, pendingVerdicts := [] }
      [AsyncEvent.execValidate 1 "ls -la", AsyncEvent.execValidate 2 "pwd",
       AsyncEvent.execSpawn 1 (some 11),
       AsyncEvent.execSpawn 2 (some 12)]).unitState.runningProcesses.length = 2 := by
  exact ⟨rfl, rfl, rfl⟩

/-- C2 witness: a serialized exec-only schedule (two validated spawns, one
exit) stays within the default bound of 5. -/
theorem C2_witness :
    (asyncRun defaultProps { unitState := emptyState, pendingVerdicts := [] }
      (serialTrace [SerialEvent.execCall 1 "ls -la" (some 1),
        SerialEvent.execCall 2 "pwd" (some 2),
        SerialEvent.procExit 1])).unitState.runningProcesses.length
      ≤ defaultProps.maxConcurrent := by
  exact C2_registry_bound_serialized defaultProps
    [SerialEvent.execCall 1 "ls -la" (some 1), SerialEvent.execCall 2 "pwd" (some 2),
     SerialEvent.procExit 1] emptyState (by decide)

/-- C4: `exec` blocked by validation leaves the whole state untouched and
spawns nothing; a spawn-level error rejects with a message naming the
command and the underlying cause, removes the registered pid, produces no
`ExecResult` and appends nothing to history; a completed execution appends
exactly its one result to the history. -/
theorem C4_exec_history_discipline (p : ShellExecProps) (st : UnitState)
    (command : String) (opts : ExecOptions) (ev : SpawnEvent) :
    ((validate p st command).valid = false →
      execRun p st command opts ev =
        { outcome := ExecOutcome.blocked
            ("[shell-exec] Command blocked: " ++ (validate p st command).reason)
          state := st, signals := [], spawned := false }) ∧
    ((validate p st command).valid = true →
      ∀ msg, ev.ending = ProcEnd.fails msg →
        (execRun p st command opts ev).outcome =
          ExecOutcome.spawnErrored
            ("Command execution failed: " ++ command ++ "\nError: " ++ msg) ∧
        (execRun p st command opts ev).state.executionHistory = st.executionHistory ∧
        (∀ q, ev.pid = some q →
          q ∉ (execRun p st command opts ev).state.runningProcesses) ∧
        (∀ r, (execRun p st command opts ev).outcome ≠ ExecOutcome.completed r)) ∧
    ((validate p st command).valid = true →
      ∀ code, ev.ending = ProcEnd.closes code →
        ∃ r, (execRun p st command opts ev).outcome = ExecOutcome.completed r ∧
          (execRun p st command opts ev).state.executionHistory
            = st.executionHistory ++ [r]) := by
  refine ⟨?_, ?_, ?_⟩
  · intro hv
    simp [execRun, hv]
  · intro hv msg hend
    refine ⟨by simp [execRun, hv, hend], by simp [execRun, hv, hend], ?_, ?_⟩
    · intro q hq
      simp only [execRun, hv, hend, hq, Bool.not_true, Bool.false_eq_true, if_false]
      exact not_mem_regDelete _ q
    · intro r
      simp [execRun, hv, hend]
  · intro hv code hend
    refine ⟨{ exitCode := code.getD 0
              stdout := jsTrim (String.join ev.stdoutChunks)
              stderr := jsTrim (String.join ev.stderrChunks)
              duration := ev.endTime
              killed := (execTimeline (resolveOptions p opts).timeout ev.endTime).2
              command := command
              pid := ev.pid }, ?_, ?_⟩
    · simp [execRun, hv, hend]
    · simp [execRun, hv, hend]

/-- C4 witness: on the concrete fixtures — a blocked command leaves the
state untouched; a failing spawn rejects naming command and cause with no
history entry; a clean completion appends exactly one entry. -/
theorem C4_witness :
    execRun defaultProps emptyState "sudo ls" {} quickClose =
      { outcome := ExecOutcome.blocked
          "[shell-exec] Command blocked: Command contains blocked pattern: sudo"
        state := emptyState, signals := [], spawned := false } ∧
    (execRun defaultProps emptyState "ls -la" {} spawnFails).outcome =
      ExecOutcome.spawnErrored "Command execution failed: ls -la\nError: spawn foo ENOENT" ∧
    (execRun defaultProps emptyState "ls -la" {} spawnFails).state.executionHistory = [] ∧
    ∃ r, (execRun defaultProps emptyState "echo hi" {} quickClose).outcome
        = ExecOutcome.completed r ∧
      (execRun defaultProps emptyState "echo hi" {} quickClose).state.executionHistory = [r] := by
  have h1 := (C4_exec_history_discipline defaultProps emptyState "sudo ls" {} quickClose).1 rfl
  have h2 := (C4_exec_history_discipline defaultProps emptyState "ls -la" {} spawnFails).2.1
    rfl "spawn foo ENOENT" rfl
  have h3 := (C4_exec_history_discipline defaultProps emptyState "echo hi" {} quickClose).2.2
    rfl (some 0) rfl
  exact ⟨h1, h2.1, h2.2.1, h3⟩

/-- C5 (code bug): with a 100 ms timeout against a process that ignores
SIGTERM and only dies at 5000 ms, the secondary force-kill is due by the
spec's words (`specForceKillDue`), yet the code sends only SIGTERM and
never SIGKILL: its guard reads `ChildProcess.killed`, which the watchdog's
own SIGTERM send already set to true — contradicting the source's own
"Force kill after additional delay" comment.  The result is still
finalized with `killed = true` after the SIGTERM. -/
theorem C5_force_kill_never_fires :
    specForceKillDue 100 5000 = true ∧
    (execRun defaultProps emptyState "node server.js"
      { timeout := some 100 } stubbornProc).signals = [Signal.sigterm] ∧
    Signal.sigkill ∉ (execRun defaultProps emptyState "node server.js"
      { timeout := some 100 } stubbornProc).signals ∧
    (execRun defaultProps emptyState "node server.js"
      { timeout := some 100 } stubbornProc).outcome =
      ExecOutcome.completed
        { exitCode := 0, stdout := "", stderr := "", duration := 5000
          killed := true, command := "node server.js", pid := some 42 } := by
  exact ⟨rfl, rfl, by decide, rfl⟩

/-- C8 amended: a completed `exec` result carries the concatenated stdout
chunks trimmed of BOTH leading and trailing whitespace (JavaScript
`trim()`), and likewise for stderr — leading whitespace is not preserved. -/
theorem C8_output_trimmed_both_ends (p : ShellExecProps) (st : UnitState)
    (command : String) (opts : ExecOptions) (ev : SpawnEvent) (r : ExecResult)
    (h : (execRun p st command opts ev).outcome = ExecOutcome.completed r) :
    r.stdout = jsTrim (String.join ev.stdoutChunks) ∧
    r.stderr = jsTrim (String.join ev.stderrChunks) := by
  by_cases hv : (validate p st command).valid = true
  · cases hend : ev.ending with
    | closes code =>
      have hout : (execRun p st command opts ev).outcome =
          ExecOutcome.completed
            { exitCode := code.getD 0
              stdout := jsTrim (String.join ev.stdoutChunks)
              stderr := jsTrim (String.join ev.stderrChunks)
              duration := ev.endTime
              killed := (execTimeline (resolveOptions p opts).timeout ev.endTime).2
              command := command
              pid := ev.pid } := by
        simp [execRun, hv, hend]
      rw [hout] at h
      injection h with hr
      rw [← hr]
      exact ⟨rfl, rfl⟩
    | fails msg =>
      have hout : (execRun p st command opts ev).outcome =
          ExecOutcome.spawnErrored
            ("Command execution failed: " ++ command ++ "\nError: " ++ msg) := by
        simp [execRun, hv, hend]
      rw [hout] at h
      exact absurd h (by simp)
  · rw [Bool.not_eq_true] at hv
    have hout : (execRun p st command opts ev).outcome =
        ExecOutcome.blocked
          ("[shell-exec] Command blocked: " ++ (validate p st command).reason) := by
      simp [execRun, hv]
    rw [hout] at h
    exact absurd h (by simp)

/-- C8 counterexample: with stdout chunks `"  hi"`, `"  \n"`, the result's
stdout is `"hi"`; a trailing-only trim that preserves leading whitespace
would give `"  hi"` — the leading spaces are not preserved. -/
theorem C8_counterexample :
    (execRun defaultProps emptyState "echo hi" {} paddedOutput).outcome =
      ExecOutcome.completed
        { exitCode := 0, stdout := "hi", stderr := "err", duration := 7
          killed := false, command := "echo hi", pid := some 103 } ∧
    specTrimEnd (String.join paddedOutput.stdoutChunks) = "  hi" ∧
    ("hi" : String) ≠ "  hi" := by
  exact ⟨rfl, rfl, by decide⟩

/-- C8 witness: the amended theorem evaluated on the padded-output run. -/
theorem C8_witness :
    ({ exitCode := 0, stdout := "hi", stderr := "err", duration := 7
       killed := false, command := "echo hi", pid := some 103 } : ExecResult).stdout
      = jsTrim (String.join paddedOutput.stdoutChunks) := by
  exact (C8_output_trimmed_both_ends defaultProps emptyState "echo hi" {}
    paddedOutput _ rfl).1

/-- C9 amended: `getHistory` allocates a fresh array (a different reference
from the stored history array) holding the same entry references in the
same append order; allocating it changes nothing observable, and any
in-place mutation of the returned ARRAY leaves the stored history as
observed by later `getHistory` calls unchanged.  (Per the counterexample,
the entry OBJECTS are shared, so field mutation through the returned array
does reach the stored history.) -/
theorem C9_snapshot_array_isolation (h : JsHeap) (histArr : Nat)
    (hlt : histArr < h.arrays.length) :
    (getHistorySnapshot h histArr).2 ≠ histArr ∧
    ((getHistorySnapshot h histArr).1.arrays.get? (getHistorySnapshot h histArr).2).getD []
      = (h.arrays.get? histArr).getD [] ∧
    observedHistory (getHistorySnapshot h histArr).1 histArr = observedHistory h histArr ∧
    ∀ contents2 : List Nat,
      observedHistory
        (setArrayAt (getHistorySnapshot h histArr).1 (getHistorySnapshot h histArr).2 contents2)
        histArr
      = observedHistory h histArr := by
  refine ⟨by simp [getHistorySnapshot]; omega, ?_, ?_, ?_⟩
  · simp [getHistorySnapshot, listGet_append_self]
  · simp only [observedHistory, getHistorySnapshot]
    rw [listGet_append_left _ _ _ hlt]
  · intro contents2
    simp only [observedHistory, getHistorySnapshot, setArrayAt]
    rw [listGet_set_ne _ _ _ _ (by omega), listGet_append_left _ _ _ hlt]

/-- C9 counterexample: the snapshot of `heap0`'s one-entry history holds
the shared object reference 0; a caller overwriting that object's fields
(`snapshot[0] = tampered record`) changes the history observed through the
stored array — refuting "no mutation a caller performs on the returned
value can change the stored history". -/
theorem C9_counterexample :
    ((getHistorySnapshot heap0 0).1.arrays.get? (getHistorySnapshot heap0 0).2).getD [] = [0] ∧
    observedHistory heap0 0 = [some resultA] ∧
    observedHistory (setObjectAt (getHistorySnapshot heap0 0).1 0 resultB) 0
      = [some resultB] ∧
    resultB ≠ resultA := by
  exact ⟨rfl, rfl, rfl, by decide⟩

/-- C9 witness: emptying the returned array of `heap0`'s snapshot leaves
the stored history unchanged. -/
theorem C9_witness :
    observedHistory
      (setArrayAt (getHistorySnapshot heap0 0).1 (getHistorySnapshot heap0 0).2 [])
      0
    = observedHistory heap0 0 := by
  exact (C9_snapshot_array_isolation heap0 0 (by decide)).2.2.2 []
